import Mathlib

/-!
# Request timing telemetry (`RequestStats`) — verification development

Shallow embedding of the timing-telemetry subsystem in `src/src/lib.rs`
(the `RequestStats` struct, its getters/setters and its `Display`
implementation), together with proofs of the specified properties.

Modelling conventions:
* A monotonic `std::time::Instant` is modelled as an integer tick count
  (`Instant := Int`).
* `Instant::duration_since` saturates to the zero duration when the
  argument is later than `self` (the behaviour of the standard library
  used by the source), so it is modelled as `max (self - earlier) 0`.
* Durations are modelled as integers; well-formedness (non-negativity)
  is proved, not assumed.
* `Duration - Duration` via `std::ops::Sub` (used as `e.sub(s)` in the
  `Display` implementation) panics on overflow; the panic is modelled by
  `Option`, with `none` standing for the panic.
* `Display` output is modelled as the list of emitted report lines.
-/

set_option autoImplicit false

/-- A monotonic clock instant, modelled as an integer tick count. -/
abbrev Instant := Int

/-- `Instant::duration_since(earlier)`: the elapsed time from `earlier` to
`self`, or the zero duration if `earlier` is later than `self` (saturating,
per the standard library behaviour the source relies on). -/
def durationSince (self earlier : Instant) : Int :=
  max (self - earlier) 0

/-- `Duration::sub` (the `std::ops::Sub` impl invoked as `e.sub(s)` in the
`Display` implementation): panics when `rhs > self`; the panic is modelled
as `none`. -/
def durationSub (self rhs : Int) : Option Int :=
  if rhs ≤ self then some (self - rhs) else none

/-- Modelled from the spec: `crate::rt::ConnectionStats` is used by
`src/src/lib.rs` but its definition (module `rt`) is not part of the
provided source.  Per §3 "Connection Phase Snapshot" it holds seven
independently optional monotonic instants, and per §4.1 its zero-argument
constructor (`Default`) produces an all-absent snapshot, which the field
defaults below realise. -/
structure ConnectionStats where
  start_time : Option Instant := none
  dns_resolve_start : Option Instant := none
  dns_resolve_end : Option Instant := none
  connect_start : Option Instant := none
  connect_end : Option Instant := none
  tls_connect_start : Option Instant := none
  tls_connect_end : Option Instant := none
deriving Repr, DecidableEq

/-- Connection and request-level stats for a http request
(`RequestStats` in `src/src/lib.rs`). -/
structure RequestStats where
  /-- Connection-level stats. -/
  connection_stats : ConnectionStats
  /-- The approximate instant that we started waiting for actual bytes on the connection. -/
  poll_start : Instant
  /-- The approximate instant the first byte of the response payload was received. -/
  fbt : Option Instant
  /-- The approximate instant we started the very last redirect this request experienced. -/
  last_redirect : Option Instant
  /-- The approximate instant we delivered the response to the caller. -/
  finish : Option Instant
deriving Repr, DecidableEq

namespace RequestStats

/-- `RequestStats::new_http2`: a mostly-empty record with an instantaneous
connection time.  `Instant::now()` is supplied as the parameter `now`. -/
def new_http2 (now : Instant) : RequestStats :=
  { connection_stats :=
      { start_time := some now
        connect_start := some now
        connect_end := some now }
    poll_start := now
    fbt := none
    last_redirect := none
    finish := none }

/-- `RequestStats::get_dns_resolve_start`: in the source,
`dns_resolve_start.map(|t| start_time.map(|s| t.duration_since(s)))?`;
the trailing `?` on the doubly-optional value is `Option.bind`. -/
def get_dns_resolve_start (self : RequestStats) : Option Int :=
  self.connection_stats.dns_resolve_start.bind fun t =>
    self.connection_stats.start_time.map fun s => durationSince t s

/-- `RequestStats::get_dns_resolve_end`. -/
def get_dns_resolve_end (self : RequestStats) : Option Int :=
  self.connection_stats.dns_resolve_end.bind fun t =>
    self.connection_stats.start_time.map fun s => durationSince t s

/-- `RequestStats::get_connect_start`. -/
def get_connect_start (self : RequestStats) : Option Int :=
  self.connection_stats.connect_start.bind fun t =>
    self.connection_stats.start_time.map fun s => durationSince t s

/-- `RequestStats::get_connect_end`. -/
def get_connect_end (self : RequestStats) : Option Int :=
  self.connection_stats.connect_end.bind fun t =>
    self.connection_stats.start_time.map fun s => durationSince t s

/-- `RequestStats::get_tls_start`. -/
def get_tls_start (self : RequestStats) : Option Int :=
  self.connection_stats.tls_connect_start.bind fun t =>
    self.connection_stats.start_time.map fun s => durationSince t s

/-- `RequestStats::get_tls_end`. -/
def get_tls_end (self : RequestStats) : Option Int :=
  self.connection_stats.tls_connect_end.bind fun t =>
    self.connection_stats.start_time.map fun s => durationSince t s

/-- `RequestStats::get_transfer_start`:
`start_time.map(|s| poll_start.duration_since(s)).unwrap_or(0)`. -/
def get_transfer_start (self : RequestStats) : Int :=
  (self.connection_stats.start_time.map fun s =>
    durationSince self.poll_start s).getD 0

/-- `RequestStats::get_ttfb`: `fbt.map(|t| t.duration_since(poll_start))`. -/
def get_ttfb (self : RequestStats) : Option Int :=
  self.fbt.map fun t => durationSince t self.poll_start

/-- `RequestStats::get_last_redirect_start`:
`last_redirect.map(|t| t.duration_since(poll_start))`. -/
def get_last_redirect_start (self : RequestStats) : Option Int :=
  self.last_redirect.map fun t => durationSince t self.poll_start

/-- `RequestStats::get_request_end`:
`finish.map(|t| t.duration_since(poll_start))`. -/
def get_request_end (self : RequestStats) : Option Int :=
  self.finish.map fun t => durationSince t self.poll_start

/-- `RequestStats::get_connection_stats`. -/
def get_connection_stats (self : RequestStats) : ConnectionStats :=
  self.connection_stats

/-- `RequestStats::set_connection_stats`. -/
def set_connection_stats (self : RequestStats) (cs : ConnectionStats) : RequestStats :=
  { self with connection_stats := cs }

/-- `RequestStats::set_last_redirect`:
`if redirect.is_some() { self.last_redirect = redirect; }`. -/
def set_last_redirect (self : RequestStats) (redirect : Option Instant) : RequestStats :=
  if redirect.isSome then { self with last_redirect := redirect } else self

/-- `RequestStats::set_poll_start`. -/
def set_poll_start (self : RequestStats) (start : Instant) : RequestStats :=
  { self with poll_start := start }

/-- `RequestStats::set_finish`. -/
def set_finish (self : RequestStats) (finish : Instant) : RequestStats :=
  { self with finish := some finish }

/-- Modelled from the spec: the first-byte marker ("record-first-byte",
§4.2) is internal to the dispatch layer and not part of the provided
source — only the `fbt` field it writes is.  Per the spec it "sets
`first_byte_time` if absent; subsequent calls are no-ops (idempotent —
first write wins)". -/
def record_first_byte (self : RequestStats) (t : Instant) : RequestStats :=
  if self.fbt.isSome then self else { self with fbt := some t }

end RequestStats

/-- One line of the rendered report produced by the `Display`
implementation, identified by its label together with the printed
duration value. -/
inductive Line where
  /-- `"name resolution: {:?}"` -/
  | nameResolution (d : Int)
  /-- `"connection: {:?}"` -/
  | connection (d : Int)
  /-- `"tls negotiation: {:?}"` -/
  | tlsLine (d : Int)
  /-- `"redirection: {:?}"` -/
  | redirection (d : Int)
  /-- `"time to first byte: {:?}"` -/
  | timeToFirstByte (d : Int)
  /-- `"total time: {:?}"` -/
  | totalTime (d : Int)
deriving Repr, DecidableEq

/-- One connection-phase block of the `Display` implementation:
`if let Some(s) = start { if let Some(e) = end { write(e.sub(s))? } }`.
Emits one line when both boundaries are present (panicking — `none` —
when the phase-offset subtraction overflows), nothing otherwise. -/
def phaseLine (s e : Option Int) (mk : Int → Line) : Option (List Line) :=
  match s, e with
  | some sv, some ev => (durationSub ev sv).map fun d => [mk d]
  | _, _ => some []

/-- One single-value block of the `Display` implementation:
`if let Some(e) = v { write(e)? }`. -/
def lineIf (o : Option Int) (mk : Int → Line) : List Line :=
  match o with
  | some e => [mk e]
  | none => []

namespace RequestStats

/-- The `Display` implementation for `RequestStats`, modelled as the list
of emitted report lines; `none` models a panic of the phase-duration
subtraction `e.sub(s)`. -/
def fmt (self : RequestStats) : Option (List Line) :=
  (phaseLine self.get_dns_resolve_start self.get_dns_resolve_end Line.nameResolution).bind fun dns =>
    (phaseLine self.get_connect_start self.get_connect_end Line.connection).bind fun conn =>
      (phaseLine self.get_tls_start self.get_tls_end Line.tlsLine).bind fun tls =>
        some (dns ++ conn ++ tls ++
          lineIf self.get_last_redirect_start Line.redirection ++
          lineIf self.get_ttfb Line.timeToFirstByte ++
          lineIf self.get_request_end Line.totalTime)

end RequestStats

/-! ## Basic lemmas -/

theorem durationSince_nonneg (a b : Instant) : 0 ≤ durationSince a b :=
  le_max_right _ _

theorem durationSince_self (a : Instant) : durationSince a a = 0 := by
  simp [durationSince]

/-! ## Claim theorems (first batch) -/

/-- Claim C5: `new_http2` produces a record whose connection snapshot has
`start_time = connect_start = connect_end = now` and all other connection
fields absent; its connect duration is exactly 0 (both connect getters
return `some 0`), its DNS and TLS getters all return `none`, and `fbt`,
`last_redirect` and `finish` are all `none`. -/
theorem new_http2_instantaneous (now : Instant) :
    (RequestStats.new_http2 now).connection_stats =
      { start_time := some now, dns_resolve_start := none, dns_resolve_end := none,
        connect_start := some now, connect_end := some now,
        tls_connect_start := none, tls_connect_end := none } ∧
    (RequestStats.new_http2 now).get_connect_start = some 0 ∧
    (RequestStats.new_http2 now).get_connect_end = some 0 ∧
    (RequestStats.new_http2 now).get_dns_resolve_start = none ∧
    (RequestStats.new_http2 now).get_dns_resolve_end = none ∧
    (RequestStats.new_http2 now).get_tls_start = none ∧
    (RequestStats.new_http2 now).get_tls_end = none ∧
    (RequestStats.new_http2 now).poll_start = now ∧
    (RequestStats.new_http2 now).fbt = none ∧
    (RequestStats.new_http2 now).last_redirect = none ∧
    (RequestStats.new_http2 now).finish = none := by
  refine ⟨rfl, ?_, ?_, rfl, rfl, rfl, rfl, rfl, rfl, rfl, rfl⟩ <;>
    simp [RequestStats.new_http2, RequestStats.get_connect_start,
      RequestStats.get_connect_end, durationSince_self]

/-- Claim C7: `get_transfer_start` returns `poll_start` minus the
connection's `start_time` (saturating), and returns the zero duration
(rather than `None`) when `start_time` is absent. -/
theorem transfer_start_baseline (r : RequestStats) :
    (∀ s, r.connection_stats.start_time = some s →
      r.get_transfer_start = durationSince r.poll_start s) ∧
    (r.connection_stats.start_time = none → r.get_transfer_start = 0) := by
  constructor
  · intro s hs
    simp [RequestStats.get_transfer_start, hs]
  · intro hs
    simp [RequestStats.get_transfer_start, hs]

/-- Claim C7 witness: the theorem applied at concrete records. -/
theorem transfer_start_baseline_witness :
    ({ connection_stats := { start_time := some 2 }, poll_start := 9,
       fbt := none, last_redirect := none, finish := none } : RequestStats).get_transfer_start = 7 ∧
    ({ connection_stats := {}, poll_start := 9,
       fbt := none, last_redirect := none, finish := none } : RequestStats).get_transfer_start = 0 := by
  constructor
  · have h := (transfer_start_baseline
      { connection_stats := { start_time := some 2 }, poll_start := 9,
        fbt := none, last_redirect := none, finish := none }).1 2 rfl
    simpa [durationSince] using h
  · exact (transfer_start_baseline
      { connection_stats := {}, poll_start := 9,
        fbt := none, last_redirect := none, finish := none }).2 rfl

/-- Claim C8: `set_last_redirect` with a present instant sets
`last_redirect` to it; `set_last_redirect` with `None` leaves the record
completely unchanged. -/
theorem set_last_redirect_sticky (r : RequestStats) (t : Instant) :
    r.set_last_redirect (some t) = { r with last_redirect := some t } ∧
    r.set_last_redirect none = r := by
  constructor <;> simp [RequestStats.set_last_redirect]

/-- Claim C9: invoking the first-byte marker twice yields the same
`get_ttfb` result as invoking it once — the first write wins. -/
theorem record_first_byte_idempotent (r : RequestStats) (t1 t2 : Instant) :
    ((r.record_first_byte t1).record_first_byte t2).get_ttfb =
      (r.record_first_byte t1).get_ttfb := by
  cases h : r.fbt <;>
    simp [RequestStats.record_first_byte, RequestStats.get_ttfb, h]

/-- Claim C10: calling `set_finish t1` then `set_finish t2` leaves
`finish = some t2` (last write wins), so `get_request_end` afterwards is
`t2` minus `poll_start`, clamped to zero. -/
theorem set_finish_last_write_wins (r : RequestStats) (t1 t2 : Instant) :
    ((r.set_finish t1).set_finish t2).finish = some t2 ∧
    ((r.set_finish t1).set_finish t2).get_request_end =
      some (durationSince t2 r.poll_start) := by
  constructor <;> simp [RequestStats.set_finish, RequestStats.get_request_end]

/-! ## The chronological population contract (§6) -/

/-- "`a ≤ b` whenever both are present" (Bool-valued, decidable). -/
def optLeB : Option Instant → Option Instant → Bool
  | some x, some y => decide (x ≤ y)
  | _, _ => true

/-- "The boundary `b` is set only after its predecessor `a`": whenever `b`
is present, `a` is present and `a ≤ b`. -/
def boundaryAfter : Option Instant → Option Instant → Bool
  | _, none => true
  | some p, some t => decide (p ≤ t)
  | none, some _ => false

/-- The chronological contract of §6 on a populated record: each
connection boundary is set only after its predecessor (`start_time`,
then optionally the DNS pair, then the connect pair, then optionally the
TLS pair), any phase is omissible only as a pair, and the per-attempt
markers (`fbt`, `last_redirect`, `finish`) do not precede `poll_start`. -/
def chronologicalContract (r : RequestStats) : Bool :=
  boundaryAfter r.connection_stats.start_time r.connection_stats.dns_resolve_start &&
  boundaryAfter r.connection_stats.dns_resolve_start r.connection_stats.dns_resolve_end &&
  (r.connection_stats.dns_resolve_start.isSome == r.connection_stats.dns_resolve_end.isSome) &&
  boundaryAfter r.connection_stats.start_time r.connection_stats.connect_start &&
  boundaryAfter r.connection_stats.connect_start r.connection_stats.connect_end &&
  (r.connection_stats.connect_start.isSome == r.connection_stats.connect_end.isSome) &&
  boundaryAfter r.connection_stats.connect_end r.connection_stats.tls_connect_start &&
  boundaryAfter r.connection_stats.tls_connect_start r.connection_stats.tls_connect_end &&
  (r.connection_stats.tls_connect_start.isSome == r.connection_stats.tls_connect_end.isSome) &&
  optLeB r.connection_stats.dns_resolve_end r.connection_stats.connect_start &&
  optLeB r.connection_stats.tls_connect_end (some r.poll_start) &&
  optLeB (some r.poll_start) r.fbt &&
  optLeB (some r.poll_start) r.last_redirect &&
  optLeB (some r.poll_start) r.finish

theorem boundaryAfter_isSome {a b : Option Instant} (h : boundaryAfter a b = true) :
    b.isSome = true → a.isSome = true := by
  cases a <;> cases b <;> simp_all [boundaryAfter]

/-- Behaviour of a connection-phase boundary getter (the shared
`p.map(|t| st.map(|s| t.duration_since(s)))?` shape): results are
non-negative, and assuming the phase instant is only present when
`start_time` is, the getter is `none` exactly when the phase instant is
absent. -/
theorem phase_getter_spec (p st : Option Instant)
    (h : p.isSome = true → st.isSome = true) :
    (∀ d, (p.bind fun t => st.map fun s => durationSince t s) = some d → 0 ≤ d) ∧
    ((p.bind fun t => st.map fun s => durationSince t s) = none ↔ p = none) := by
  cases p with
  | none => simp
  | some t =>
    cases st with
    | none => simp at h
    | some s =>
      refine ⟨?_, by simp⟩
      rintro d hd
      have hds : durationSince t s = d := by simpa using hd
      exact hds ▸ durationSince_nonneg t s

/-- Behaviour of a `poll_start`-relative getter
(`o.map(|t| t.duration_since(poll_start))`): results are non-negative and
the getter is `none` exactly when the instant is absent. -/
theorem simple_getter_spec (o : Option Instant) (base : Instant) :
    (∀ d, (o.map fun t => durationSince t base) = some d → 0 ≤ d) ∧
    ((o.map fun t => durationSince t base) = none ↔ o = none) := by
  cases o with
  | none => simp
  | some t =>
    refine ⟨?_, by simp⟩
    rintro d hd
    have hds : durationSince t base = d := by simpa using hd
    exact hds ▸ durationSince_nonneg t base

/-- The conclusion of claim C1: every derived getter returns a
non-negative duration when it returns at all, and returns `none` exactly
when the underlying phase instant was never recorded. -/
def getterContractSpec (r : RequestStats) : Prop :=
  (∀ d, r.get_dns_resolve_start = some d → 0 ≤ d) ∧
  (r.get_dns_resolve_start = none ↔ r.connection_stats.dns_resolve_start = none) ∧
  (∀ d, r.get_dns_resolve_end = some d → 0 ≤ d) ∧
  (r.get_dns_resolve_end = none ↔ r.connection_stats.dns_resolve_end = none) ∧
  (∀ d, r.get_connect_start = some d → 0 ≤ d) ∧
  (r.get_connect_start = none ↔ r.connection_stats.connect_start = none) ∧
  (∀ d, r.get_connect_end = some d → 0 ≤ d) ∧
  (r.get_connect_end = none ↔ r.connection_stats.connect_end = none) ∧
  (∀ d, r.get_tls_start = some d → 0 ≤ d) ∧
  (r.get_tls_start = none ↔ r.connection_stats.tls_connect_start = none) ∧
  (∀ d, r.get_tls_end = some d → 0 ≤ d) ∧
  (r.get_tls_end = none ↔ r.connection_stats.tls_connect_end = none) ∧
  (∀ d, r.get_ttfb = some d → 0 ≤ d) ∧
  (r.get_ttfb = none ↔ r.fbt = none) ∧
  (∀ d, r.get_last_redirect_start = some d → 0 ≤ d) ∧
  (r.get_last_redirect_start = none ↔ r.last_redirect = none) ∧
  (∀ d, r.get_request_end = some d → 0 ≤ d) ∧
  (r.get_request_end = none ↔ r.finish = none)

/-- Claim C1: for every record populated according to the chronological
contract of §6, every derived getter returns `some d` with `d ≥ 0`, and
returns `none` exactly when the underlying phase instant was never
recorded. -/
theorem derived_getters_of_contract (r : RequestStats)
    (h : chronologicalContract r = true) : getterContractSpec r := by
  simp only [chronologicalContract, Bool.and_eq_true] at h
  obtain ⟨⟨⟨⟨⟨⟨⟨⟨⟨⟨⟨⟨⟨hA, hB⟩, hC⟩, hD⟩, hE⟩, hF⟩, hG⟩, hH⟩, hI⟩, hJ⟩, hK⟩, hL⟩, hM⟩, hN⟩ := h
  have hds : r.connection_stats.dns_resolve_start.isSome = true →
      r.connection_stats.start_time.isSome = true := boundaryAfter_isSome hA
  have hde : r.connection_stats.dns_resolve_end.isSome = true →
      r.connection_stats.start_time.isSome = true :=
    fun hp => hds (boundaryAfter_isSome hB hp)
  have hcs : r.connection_stats.connect_start.isSome = true →
      r.connection_stats.start_time.isSome = true := boundaryAfter_isSome hD
  have hce : r.connection_stats.connect_end.isSome = true →
      r.connection_stats.start_time.isSome = true :=
    fun hp => hcs (boundaryAfter_isSome hE hp)
  have hts : r.connection_stats.tls_connect_start.isSome = true →
      r.connection_stats.start_time.isSome = true :=
    fun hp => hce (boundaryAfter_isSome hG hp)
  have hte : r.connection_stats.tls_connect_end.isSome = true →
      r.connection_stats.start_time.isSome = true :=
    fun hp => hts (boundaryAfter_isSome hH hp)
  exact ⟨(phase_getter_spec _ _ hds).1, (phase_getter_spec _ _ hds).2,
    (phase_getter_spec _ _ hde).1, (phase_getter_spec _ _ hde).2,
    (phase_getter_spec _ _ hcs).1, (phase_getter_spec _ _ hcs).2,
    (phase_getter_spec _ _ hce).1, (phase_getter_spec _ _ hce).2,
    (phase_getter_spec _ _ hts).1, (phase_getter_spec _ _ hts).2,
    (phase_getter_spec _ _ hte).1, (phase_getter_spec _ _ hte).2,
    (simple_getter_spec _ _).1, (simple_getter_spec _ _).2,
    (simple_getter_spec _ _).1, (simple_getter_spec _ _).2,
    (simple_getter_spec _ _).1, (simple_getter_spec _ _).2⟩

/-- A fully populated record obeying the chronological contract. -/
def rFull : RequestStats :=
  { connection_stats :=
      { start_time := some 0, dns_resolve_start := some 1, dns_resolve_end := some 2,
        connect_start := some 3, connect_end := some 4,
        tls_connect_start := some 5, tls_connect_end := some 6 }
    poll_start := 10
    fbt := some 15
    last_redirect := some 20
    finish := some 30 }

/-- Claim C1 witness: the contract holds of `rFull` and the theorem
applies to it. -/
theorem derived_getters_of_contract_witness :
    chronologicalContract rFull = true ∧ getterContractSpec rFull :=
  ⟨by decide, derived_getters_of_contract rFull (by decide)⟩

/-! ## Claim C3: boundary getters are offsets from start_time -/

/-- Behaviour of a connection-phase boundary getter with no presence
assumption: when both the boundary instant and `start_time` are present
the getter returns the offset of the boundary from `start_time`, and
whenever `start_time` is absent the getter returns `none` (even if the
boundary instant is present). -/
theorem phase_getter_offset (p st : Option Instant) :
    (∀ t s, p = some t → st = some s →
      (p.bind fun u => st.map fun v => durationSince u v) = some (durationSince t s)) ∧
    (st = none → (p.bind fun u => st.map fun v => durationSince u v) = none) := by
  constructor
  · rintro t s rfl rfl
    rfl
  · rintro rfl
    cases p <;> rfl

/-- Claim C3: each phase-boundary getter returns the offset of the
recorded boundary instant from the connection's `start_time` (not the
duration of the phase), and returns `none` whenever `start_time` is
absent, even if the boundary instant itself is present. -/
theorem phase_getters_offset_from_start (r : RequestStats) :
    (∀ t s, r.connection_stats.dns_resolve_start = some t →
      r.connection_stats.start_time = some s →
      r.get_dns_resolve_start = some (durationSince t s)) ∧
    (r.connection_stats.start_time = none → r.get_dns_resolve_start = none) ∧
    (∀ t s, r.connection_stats.dns_resolve_end = some t →
      r.connection_stats.start_time = some s →
      r.get_dns_resolve_end = some (durationSince t s)) ∧
    (r.connection_stats.start_time = none → r.get_dns_resolve_end = none) ∧
    (∀ t s, r.connection_stats.connect_start = some t →
      r.connection_stats.start_time = some s →
      r.get_connect_start = some (durationSince t s)) ∧
    (r.connection_stats.start_time = none → r.get_connect_start = none) ∧
    (∀ t s, r.connection_stats.connect_end = some t →
      r.connection_stats.start_time = some s →
      r.get_connect_end = some (durationSince t s)) ∧
    (r.connection_stats.start_time = none → r.get_connect_end = none) ∧
    (∀ t s, r.connection_stats.tls_connect_start = some t →
      r.connection_stats.start_time = some s →
      r.get_tls_start = some (durationSince t s)) ∧
    (r.connection_stats.start_time = none → r.get_tls_start = none) ∧
    (∀ t s, r.connection_stats.tls_connect_end = some t →
      r.connection_stats.start_time = some s →
      r.get_tls_end = some (durationSince t s)) ∧
    (r.connection_stats.start_time = none → r.get_tls_end = none) :=
  ⟨(phase_getter_offset _ _).1, (phase_getter_offset _ _).2,
    (phase_getter_offset _ _).1, (phase_getter_offset _ _).2,
    (phase_getter_offset _ _).1, (phase_getter_offset _ _).2,
    (phase_getter_offset _ _).1, (phase_getter_offset _ _).2,
    (phase_getter_offset _ _).1, (phase_getter_offset _ _).2,
    (phase_getter_offset _ _).1, (phase_getter_offset _ _).2⟩

/-- A record whose DNS boundary is present but whose `start_time` is
absent. -/
def rNoStart : RequestStats :=
  { connection_stats := { dns_resolve_start := some 7 }
    poll_start := 0
    fbt := none
    last_redirect := none
    finish := none }

/-- Claim C3 witness: on `rNoStart` the boundary is present yet the
getter returns `none`; on `rFull` the getter returns the offset from
`start_time`. -/
theorem phase_getters_offset_from_start_witness :
    rNoStart.connection_stats.dns_resolve_start = some 7 ∧
    rNoStart.get_dns_resolve_start = none ∧
    rFull.get_dns_resolve_start = some (durationSince 1 0) :=
  ⟨rfl, (phase_getters_offset_from_start rNoStart).2.1 rfl,
    (phase_getters_offset_from_start rFull).1 1 0 rfl rfl⟩

/-! ## Claim C4: the last-redirect marker tracks the most recent hop -/

/-- A sequence of `set_last_redirect` calls applied in order. -/
def applyRedirects (r : RequestStats) (calls : List (Option Instant)) : RequestStats :=
  calls.foldl RequestStats.set_last_redirect r

/-- The last present value of a call sequence (the value `last_redirect`
holds after the sequence, starting from an absent value). -/
def lastPresent (calls : List (Option Instant)) : Option Instant :=
  calls.foldl (fun acc c => if c.isSome then c else acc) none

theorem applyRedirects_poll_start (calls : List (Option Instant)) (r : RequestStats) :
    (applyRedirects r calls).poll_start = r.poll_start := by
  induction calls generalizing r with
  | nil => rfl
  | cons c cs ih =>
    show (applyRedirects (r.set_last_redirect c) cs).poll_start = r.poll_start
    rw [ih]
    cases c <;> simp [RequestStats.set_last_redirect]

theorem applyRedirects_last_redirect (calls : List (Option Instant)) (r : RequestStats) :
    (applyRedirects r calls).last_redirect =
      calls.foldl (fun acc c => if c.isSome then c else acc) r.last_redirect := by
  induction calls generalizing r with
  | nil => rfl
  | cons c cs ih =>
    show (applyRedirects (r.set_last_redirect c) cs).last_redirect = _
    rw [List.foldl_cons, ih]
    congr 1
    cases c <;> simp [RequestStats.set_last_redirect]

theorem lastPresent_fold_none (calls : List (Option Instant)) : ∀ a : Option Instant,
    calls.foldl (fun acc c => if c.isSome then c else acc) a = none ↔
      (a = none ∧ ∀ c ∈ calls, c = none) := by
  induction calls with
  | nil => intro a; simp
  | cons c cs ih =>
    intro a
    rw [List.foldl_cons, ih]
    cases c <;> simp_all

theorem lastPresent_fold_map_some (t : Instant) (ts : List Instant) : ∀ a : Option Instant,
    ((t :: ts).map Option.some).foldl (fun acc c => if c.isSome then c else acc) a =
      (t :: ts).getLast? := by
  induction ts generalizing t with
  | nil => intro a; rfl
  | cons u us ih =>
    intro a
    rw [List.getLast?_cons_cons]
    exact ih u (some t)

/-- Claim C4: starting from a record that was never redirected,
`get_last_redirect_start` is `none` exactly when no `set_last_redirect`
call carried a present instant, and otherwise reflects the most recent
present instant; in particular after `N ≥ 1` recorded redirects it
reflects the `N`-th (most recent) hop. -/
theorem last_redirect_reflects_latest_hop (r : RequestStats)
    (calls : List (Option Instant)) (h : r.last_redirect = none) :
    ((applyRedirects r calls).get_last_redirect_start = none ↔ ∀ c ∈ calls, c = none) ∧
    (applyRedirects r calls).get_last_redirect_start =
      (lastPresent calls).map (fun t => durationSince t r.poll_start) ∧
    ∀ (t : Instant) (ts : List Instant),
      (applyRedirects r ((t :: ts).map Option.some)).get_last_redirect_start =
        ((t :: ts).getLast?).map fun u => durationSince u r.poll_start := by
  have hget : ∀ cs : List (Option Instant),
      (applyRedirects r cs).get_last_redirect_start =
        (lastPresent cs).map fun t => durationSince t r.poll_start := by
    intro cs
    unfold RequestStats.get_last_redirect_start
    rw [applyRedirects_poll_start, applyRedirects_last_redirect, h]
    rfl
  refine ⟨?_, hget calls, ?_⟩
  · rw [hget calls]
    rw [Option.map_eq_none']
    unfold lastPresent
    rw [lastPresent_fold_none]
    simp
  · intro t ts
    rw [hget ((t :: ts).map Option.some)]
    unfold lastPresent
    rw [lastPresent_fold_map_some]

/-- A pooled-connection record: all connection phases absent, nothing
recorded yet. -/
def rPool : RequestStats :=
  { connection_stats := {}
    poll_start := 0
    fbt := none
    last_redirect := none
    finish := none }

/-- Claim C4 witness: after the call sequence `[some 5, none, some 9]`
the getter reflects the most recent hop (`9`), and after `[none, none]`
it is still `none`. -/
theorem last_redirect_reflects_latest_hop_witness :
    rPool.last_redirect = none ∧
    (applyRedirects rPool [some 5, none, some 9]).get_last_redirect_start = some 9 ∧
    (applyRedirects rPool [none, none]).get_last_redirect_start = none := by
  refine ⟨rfl, ?_, ?_⟩
  · have h := (last_redirect_reflects_latest_hop rPool [some 5, none, some 9] rfl).2.1
    simpa [lastPresent, rPool, durationSince] using h
  · exact (last_redirect_reflects_latest_hop rPool [none, none] rfl).1.mpr (by simp)

/-! ## Claim C2: clamping, and the panicking Display subtraction -/

/-- Non-negativity of a connection-phase boundary getter, with no
assumption at all on the recorded ordering. -/
theorem phase_getter_nonneg (p st : Option Instant) :
    ∀ d, (p.bind fun t => st.map fun s => durationSince t s) = some d → 0 ≤ d := by
  cases p with
  | none => simp
  | some t =>
    cases st with
    | none => simp
    | some s =>
      rintro d hd
      have hds : durationSince t s = d := by simpa using hd
      exact hds ▸ durationSince_nonneg t s

theorem get_transfer_start_nonneg (r : RequestStats) : 0 ≤ r.get_transfer_start := by
  unfold RequestStats.get_transfer_start
  cases h : r.connection_stats.start_time <;> simp [h, durationSince_nonneg]

/-- Every duration computation in the getters is total and clamps to
zero: whatever the recorded ordering, no getter ever yields a negative
duration. -/
def nonnegGetterSpec (r : RequestStats) : Prop :=
  (∀ d, r.get_dns_resolve_start = some d → 0 ≤ d) ∧
  (∀ d, r.get_dns_resolve_end = some d → 0 ≤ d) ∧
  (∀ d, r.get_connect_start = some d → 0 ≤ d) ∧
  (∀ d, r.get_connect_end = some d → 0 ≤ d) ∧
  (∀ d, r.get_tls_start = some d → 0 ≤ d) ∧
  (∀ d, r.get_tls_end = some d → 0 ≤ d) ∧
  0 ≤ r.get_transfer_start ∧
  (∀ d, r.get_ttfb = some d → 0 ≤ d) ∧
  (∀ d, r.get_last_redirect_start = some d → 0 ≤ d) ∧
  (∀ d, r.get_request_end = some d → 0 ≤ d)

/-- The phase offsets handed by the getters to the `Display`
implementation are pairwise ordered (each phase's end offset at least
its start offset). -/
def phaseOffsetsOrdered (r : RequestStats) : Bool :=
  optLeB r.get_dns_resolve_start r.get_dns_resolve_end &&
  optLeB r.get_connect_start r.get_connect_end &&
  optLeB r.get_tls_start r.get_tls_end

theorem phaseLine_isSome_of_optLeB {s e : Option Int} {mk : Int → Line}
    (h : optLeB s e = true) : (phaseLine s e mk).isSome = true := by
  cases s <;> cases e <;> simp_all [phaseLine, optLeB, durationSub]

/-- A record violating the chronological contract: its DNS end precedes
its DNS start. -/
def rDnsBad : RequestStats :=
  { connection_stats :=
      { start_time := some 0, dns_resolve_start := some 10, dns_resolve_end := some 5 }
    poll_start := 0
    fbt := none
    last_redirect := none
    finish := none }

/-- Claim C2 counterexample: on `rDnsBad` (whose DNS end precedes its DNS
start) the `Display` rendering does not clamp — the phase-duration
subtraction `e.sub(s)` overflows and panics (modelled as `none`), so the
rendering is fallible, contrary to the claim. -/
theorem display_panics_on_misordered_dns : rDnsBad.fmt = none := by decide

/-- Claim C2 (amended): every duration computation in the getters clamps
to zero — no getter ever produces a negative duration or fails, whatever
the recorded ordering — and the `Display` rendering completes whenever
each recorded phase's end offset is at least its start offset; when some
phase's offsets are out of order, the rendering's `e.sub(s)` panics
instead of clamping. -/
theorem getters_clamp_and_display_of_ordered (r : RequestStats) :
    nonnegGetterSpec r ∧
      (phaseOffsetsOrdered r = true → (r.fmt).isSome = true) := by
  constructor
  · exact ⟨phase_getter_nonneg _ _, phase_getter_nonneg _ _, phase_getter_nonneg _ _,
      phase_getter_nonneg _ _, phase_getter_nonneg _ _, phase_getter_nonneg _ _,
      get_transfer_start_nonneg r, (simple_getter_spec _ _).1,
      (simple_getter_spec _ _).1, (simple_getter_spec _ _).1⟩
  · intro h
    simp only [phaseOffsetsOrdered, Bool.and_eq_true] at h
    obtain ⟨⟨h1, h2⟩, h3⟩ := h
    obtain ⟨dns, hdns⟩ := Option.isSome_iff_exists.mp (phaseLine_isSome_of_optLeB h1)
    obtain ⟨conn, hconn⟩ := Option.isSome_iff_exists.mp (phaseLine_isSome_of_optLeB h2)
    obtain ⟨tl, htl⟩ := Option.isSome_iff_exists.mp (phaseLine_isSome_of_optLeB h3)
    unfold RequestStats.fmt
    rw [hdns, hconn, htl]
    rfl

/-- Claim C2 witness: the amended theorem applied to the well-ordered
record `rFull`, whose rendering completes. -/
theorem getters_clamp_and_display_of_ordered_witness :
    phaseOffsetsOrdered rFull = true ∧ ((rFull.fmt).isSome = true ∧ nonnegGetterSpec rFull) :=
  ⟨by decide, (getters_clamp_and_display_of_ordered rFull).2 (by decide),
    (getters_clamp_and_display_of_ordered rFull).1⟩

/-! ## Claim C6: report line order and emission conditions -/

/-- The position of each report line kind in the fixed rendering order. -/
def lineRank : Line → Nat
  | .nameResolution _ => 0
  | .connection _ => 1
  | .tlsLine _ => 2
  | .redirection _ => 3
  | .timeToFirstByte _ => 4
  | .totalTime _ => 5

/-- The structure claimed of a completed report: lines appear in strictly
increasing rendering order (DNS, connect, TLS, redirect lag, TTFB,
total); a connection-phase line appears only if both of that phase's
boundary getters return `some`; the redirect-lag line only if a redirect
was recorded; the TTFB line only if the first byte was recorded; and the
total line appears whenever `finish` is present. -/
def reportSpec (r : RequestStats) (lines : List Line) : Prop :=
  lines.Pairwise (fun a b => lineRank a < lineRank b) ∧
  ((∃ d, Line.nameResolution d ∈ lines) →
    r.get_dns_resolve_start.isSome = true ∧ r.get_dns_resolve_end.isSome = true) ∧
  ((∃ d, Line.connection d ∈ lines) →
    r.get_connect_start.isSome = true ∧ r.get_connect_end.isSome = true) ∧
  ((∃ d, Line.tlsLine d ∈ lines) →
    r.get_tls_start.isSome = true ∧ r.get_tls_end.isSome = true) ∧
  ((∃ d, Line.redirection d ∈ lines) → r.last_redirect.isSome = true) ∧
  ((∃ d, Line.timeToFirstByte d ∈ lines) → r.fbt.isSome = true) ∧
  (r.finish.isSome = true → ∃ d, Line.totalTime d ∈ lines)

theorem phaseLine_shape {s e : Option Int} {mk : Int → Line} {l : List Line}
    (h : phaseLine s e mk = some l) :
    l = [] ∨ ∃ d, l = [mk d] ∧ s.isSome = true ∧ e.isSome = true := by
  cases s with
  | none => cases e <;> simp_all [phaseLine]
  | some sv =>
    cases e with
    | none => simp_all [phaseLine]
    | some ev =>
      right
      simp only [phaseLine] at h
      rcases hd : durationSub ev sv with _ | d <;> rw [hd] at h
      · simp at h
      · exact ⟨d, by simpa using h.symm, rfl, rfl⟩

theorem last_redirect_isSome_eq (r : RequestStats) :
    r.last_redirect.isSome = (r.get_last_redirect_start).isSome := by
  unfold RequestStats.get_last_redirect_start
  cases r.last_redirect <;> rfl

theorem fbt_isSome_eq (r : RequestStats) :
    r.fbt.isSome = (r.get_ttfb).isSome := by
  unfold RequestStats.get_ttfb
  cases r.fbt <;> rfl

theorem finish_isSome_eq (r : RequestStats) :
    r.finish.isSome = (r.get_request_end).isSome := by
  unfold RequestStats.get_request_end
  cases r.finish <;> rfl

set_option maxHeartbeats 3200000 in
/-- Claim C6 (amended): whenever the `Display` rendering completes
(which it does unless some recorded phase's end offset is smaller than
its start offset, in which case it panics mid-report), the emitted lines
are in the fixed order DNS, connect, TLS, redirect lag, time-to-first-
byte, total; a connection-phase line appears only if both of that
phase's boundary getters return `some`; the redirect-lag line only if a
redirect was recorded; the time-to-first-byte line only if the first
byte was recorded; and the total-duration line is emitted whenever
`finish` is present. -/
theorem display_line_order_and_conditions (r : RequestStats) (lines : List Line)
    (h : r.fmt = some lines) : reportSpec r lines := by
  unfold RequestStats.fmt at h
  rw [Option.bind_eq_some] at h
  obtain ⟨dns, hdp, h⟩ := h
  rw [Option.bind_eq_some] at h
  obtain ⟨conn, hcp, h⟩ := h
  rw [Option.bind_eq_some] at h
  obtain ⟨tl, htp, h⟩ := h
  have hlines := (Option.some.inj h).symm
  subst hlines
  rcases phaseLine_shape hdp with rfl | ⟨d1, rfl, hs1, he1⟩ <;>
    rcases phaseLine_shape hcp with rfl | ⟨d2, rfl, hs2, he2⟩ <;>
      rcases phaseLine_shape htp with rfl | ⟨d3, rfl, hs3, he3⟩ <;>
        rcases hrl : r.get_last_redirect_start with _ | e4 <;>
          rcases htt : r.get_ttfb with _ | e5 <;>
            rcases hre : r.get_request_end with _ | e6 <;>
              simp_all [reportSpec, lineIf, lineRank,
                last_redirect_isSome_eq, fbt_isSome_eq, finish_isSome_eq]

/-- A record violating the chronological contract with a recorded
finish: its TLS end precedes its TLS start. -/
def rTlsBad : RequestStats :=
  { connection_stats :=
      { start_time := some 0, tls_connect_start := some 10, tls_connect_end := some 4 }
    poll_start := 0
    fbt := none
    last_redirect := none
    finish := some 50 }

/-- Claim C6 counterexample: on `rTlsBad`, `finish` is present yet the
rendering emits no total-duration line (and no deterministic line
sequence at all): the TLS phase-duration subtraction panics (modelled as
`none`) before the total line is reached, contrary to "the
total-duration line is always emitted if finish is present". -/
theorem display_total_line_lost_on_misordered_tls :
    rTlsBad.finish.isSome = true ∧ rTlsBad.fmt = none := by
  constructor <;> decide

/-- Claim C6 witness: the fully populated, well-ordered record `rFull`
renders to the six lines in order, and the amended theorem applies. -/
theorem display_line_order_and_conditions_witness :
    rFull.fmt = some [Line.nameResolution 1, Line.connection 1, Line.tlsLine 1,
      Line.redirection 10, Line.timeToFirstByte 5, Line.totalTime 20] ∧
    reportSpec rFull [Line.nameResolution 1, Line.connection 1, Line.tlsLine 1,
      Line.redirection 10, Line.timeToFirstByte 5, Line.totalTime 20] :=
  ⟨by decide,
    display_line_order_and_conditions rFull
      [Line.nameResolution 1, Line.connection 1, Line.tlsLine 1,
        Line.redirection 10, Line.timeToFirstByte 5, Line.totalTime 20] (by decide)⟩
